import Mathlib

/- Verification development for the bouncing-balls simulation in src/main.rs.

   The f32 scalars of the Rust program (and the glam Vec2 components behind
   nannou's Point2/Vec2) are modelled over the reals.  The single place where
   IEEE-754 behaviour escapes real arithmetic at the magnitudes this program
   works with is Vec2::normalize applied to a zero-length vector: glam divides
   by the length, so a zero vector produces NaN components.  We model that
   outcome as Option.none, and every Option-valued result in this file
   propagates it: a result of none means the Rust computation poisoned the
   touched state with NaN. -/

noncomputable section

/-- Model of nannou/glam Vec2 (two f32 components, modelled over the reals). -/
structure Vec2 where
  x : ℝ
  y : ℝ

instance : Add Vec2 := ⟨fun a b => ⟨a.x + b.x, a.y + b.y⟩⟩

instance : Sub Vec2 := ⟨fun a b => ⟨a.x - b.x, a.y - b.y⟩⟩

instance : Neg Vec2 := ⟨fun a => ⟨-a.x, -a.y⟩⟩

/-- Scalar multiplication, modelling both `f32 * Vec2` and `Vec2 * f32`. -/
def Vec2.smul (c : ℝ) (v : Vec2) : Vec2 := ⟨c * v.x, c * v.y⟩

/-- glam Vec2::dot. -/
def Vec2.dot (a b : Vec2) : ℝ := a.x * b.x + a.y * b.y

/-- glam Vec2::length, `sqrt (dot self self)`. -/
def Vec2.length (v : Vec2) : ℝ := Real.sqrt (v.dot v)

/-- glam Vec2::distance, the length of the difference. -/
def Vec2.distance (a b : Vec2) : ℝ := (a - b).length

/-- glam Vec2::normalize multiplies by the reciprocal of the length; on a
zero-length vector the reciprocal is infinite and the components come out NaN
(glam documents the result as invalid), which we model as none. -/
def Vec2.normalize (v : Vec2) : Option Vec2 :=
  if v.length = 0 then none else some (Vec2.smul v.length⁻¹ v)

/-- Model of nannou Rgb: three f32 channels. -/
structure Rgb where
  red : ℝ
  green : ℝ
  blue : ℝ

/-- Model of nannou Rect: the window bounds. -/
structure Rect where
  left : ℝ
  right : ℝ
  bottom : ℝ
  top : ℝ

/-- The Ball struct of src/main.rs. -/
structure Ball where
  position : Vec2
  velocity : Vec2
  color : Rgb
  color_change_speed : Rgb
  color_change_direction : Rgb

/-- Ball::update from src/main.rs: integrate position, reflect velocity at the
window bounds, drift each color channel and flip its direction at 0 / 1. -/
def Ball.update (self : Ball) (win_rect : Rect) : Ball :=
  let position := self.position + self.velocity
  let vx :=
    if position.x < win_rect.left ∨ position.x > win_rect.right then
      -self.velocity.x
    else
      self.velocity.x
  let vy :=
    if position.y < win_rect.bottom ∨ position.y > win_rect.top then
      -self.velocity.y
    else
      self.velocity.y
  let red := self.color.red + self.color_change_speed.red * self.color_change_direction.red
  let green := self.color.green + self.color_change_speed.green * self.color_change_direction.green
  let blue := self.color.blue + self.color_change_speed.blue * self.color_change_direction.blue
  { position := position,
    velocity := ⟨vx, vy⟩,
    color := ⟨red, green, blue⟩,
    color_change_speed := self.color_change_speed,
    color_change_direction :=
      ⟨self.color_change_direction.red * (if red ≤ 0 ∨ red ≥ 1 then -1 else 1),
       self.color_change_direction.green * (if green ≤ 0 ∨ green ≥ 1 then -1 else 1),
       self.color_change_direction.blue * (if blue ≤ 0 ∨ blue ≥ 1 then -1 else 1)⟩ }

/-- Ball::collide from src/main.rs.  The radius is the hard-coded 20.0 of the
source, so radii_sum is 20.0 * 2.0.  A none result models the NaN poisoning
that the unguarded normalize of a zero collision vector produces. -/
def Ball.collide (self other : Ball) : Option (Ball × Ball) :=
  let distance := self.position.distance other.position
  let radii_sum : ℝ := 20 * 2
  if distance < radii_sum then
    ((self.position - other.position).normalize).map fun normal =>
      let self_velocity := Vec2.smul (self.velocity.dot normal) normal
      let other_velocity := Vec2.smul (other.velocity.dot normal) normal
      let overlap := radii_sum - distance
      let correction := Vec2.smul (overlap / 2) normal
      ({ self with
          velocity := self.velocity + (other_velocity - self_velocity),
          position := self.position + correction },
       { other with
          velocity := other.velocity + (self_velocity - other_velocity),
          position := other.position - correction })
  else
    some (self, other)

/-- Placeholder ball for out-of-range list indexing (never reached on the
index ranges the update loop uses). -/
def dummyBall : Ball := ⟨⟨0, 0⟩, ⟨0, 0⟩, ⟨0, 0, 0⟩, ⟨0, 0, 0⟩, ⟨0, 0, 0⟩⟩

/-- One `ball_i.collide(ball_j)` call of the sweep, acting on the whole
collection: both members of the pair are replaced by the collision result. -/
def collideAt (balls : List Ball) (i j : Nat) : Option (List Ball) :=
  ((balls.getD i dummyBall).collide (balls.getD j dummyBall)).map fun bij =>
    (balls.set i bij.1).set j bij.2

/-- The update function of src/main.rs (one simulation tick): advance every
ball (the rayon par_iter_mut is a map in which each ball depends only on its
own prior state), then the sequential sweep `for i in 0..len`,
`for ball_j in balls[i+1..]`, `balls[i].collide(ball_j)`. -/
def update (balls : List Ball) (win_rect : Rect) : Option (List Ball) :=
  let advanced := balls.map fun b => b.update win_rect
  let n := advanced.length
  (List.range n).foldlM
    (fun bs i =>
      ((List.range n).drop (i + 1)).foldlM (fun cur j => collideAt cur i j) bs)
    advanced

/-- All index pairs (i, j) with i < j < n, in ascending i then ascending j
order. -/
def pairs (n : Nat) : List (Nat × Nat) :=
  (List.range n).foldr
    (fun i acc => (((List.range n).drop (i + 1)).map fun j => (i, j)) ++ acc) []

/-- Reference tick written to the specification's words (spec section 4.3):
phase 1 calls advance on every particle (an order-independent map), then
phase 2 resolves every pair (i, j) with i < j in ascending i then ascending j
order, in a single pass. -/
def tickSpec (balls : List Ball) (bounds : Rect) : Option (List Ball) :=
  let advanced := balls.map fun b => b.update bounds
  (pairs balls.length).foldlM (fun cur ij => collideAt cur ij.1 ij.2) advanced

/-- Iterated ticks of a single ball (for color-channel invariants; the color
state of a ball never depends on the other balls). -/
def updateIter (b : Ball) (r : Rect) : Nat → Ball
  | 0 => b
  | n + 1 => (updateIter b r n).update r

/-- One color channel step of Ball::update: value += speed * direction, then
the direction is multiplied by -1 exactly when the new value is ≤ 0 or ≥ 1. -/
def chanStep (s : ℝ) (p : ℝ × ℝ) : ℝ × ℝ :=
  (p.1 + s * p.2, p.2 * (if p.1 + s * p.2 ≤ 0 ∨ p.1 + s * p.2 ≥ 1 then -1 else 1))

/-- Invariant of one color channel (value, direction) under chanStep with
drift speed s. -/
def chanInv (s : ℝ) (p : ℝ × ℝ) : Prop :=
  (p.2 = 1 ∨ p.2 = -1) ∧ -s ≤ p.1 ∧ p.1 ≤ 1 + s ∧
    (1 < p.1 → p.2 = -1) ∧ (p.1 < 0 → p.2 = 1)

/-- Well-formed starting state of one color channel: speed in [0, 1], value in
[0, 1], direction either 1 or -1 (as produced at spawn in src/main.rs). -/
def chanOK (s v d : ℝ) : Prop :=
  0 ≤ s ∧ s ≤ 1 ∧ 0 ≤ v ∧ v ≤ 1 ∧ (d = 1 ∨ d = -1)

/-- Ball colliding from an exactly coincident position (degenerate case). -/
def c1self : Ball := ⟨⟨0, 0⟩, ⟨1, 0⟩, ⟨1/2, 1/2, 1/2⟩, ⟨1/200, 1/200, 1/200⟩, ⟨1, 1, 1⟩⟩

/-- Second ball at the same position as c1self. -/
def c1other : Ball := ⟨⟨0, 0⟩, ⟨-1, 0⟩, ⟨1/2, 1/2, 1/2⟩, ⟨1/200, 1/200, 1/200⟩, ⟨1, -1, 1⟩⟩

/-- Head-on collision test ball (moving right at the origin). -/
def c6self : Ball := ⟨⟨0, 0⟩, ⟨1, 0⟩, ⟨1/2, 1/2, 1/2⟩, ⟨1/200, 1/200, 1/200⟩, ⟨1, 1, 1⟩⟩

/-- Head-on collision test ball (moving left, 30 units to the right). -/
def c6other : Ball := ⟨⟨30, 0⟩, ⟨-1, 0⟩, ⟨1/4, 1/4, 1/4⟩, ⟨1/200, 1/200, 1/200⟩, ⟨-1, 1, -1⟩⟩

/-- Witness ball for the separated no-op collision. -/
def w7self : Ball := ⟨⟨0, 0⟩, ⟨1, 1⟩, ⟨1/4, 1/4, 1/4⟩, ⟨1/200, 1/200, 1/200⟩, ⟨1, 1, 1⟩⟩

/-- Witness ball 50 units away from w7self. -/
def w7other : Ball := ⟨⟨50, 0⟩, ⟨2, 2⟩, ⟨3/4, 3/4, 3/4⟩, ⟨1/200, 1/200, 1/200⟩, ⟨-1, 1, -1⟩⟩

/-- Witness ball for momentum conservation (overlapping pair). -/
def w9self : Ball := ⟨⟨0, 0⟩, ⟨1, 2⟩, ⟨1/4, 1/4, 1/4⟩, ⟨1/200, 1/200, 1/200⟩, ⟨1, 1, 1⟩⟩

/-- Witness ball 30 units away from w9self (overlap, since radii_sum is 40). -/
def w9other : Ball := ⟨⟨30, 0⟩, ⟨-1, 0⟩, ⟨3/4, 3/4, 3/4⟩, ⟨1/200, 1/200, 1/200⟩, ⟨1, 1, 1⟩⟩

/-- Ball whose green channel (in range, not even at the boundary) overshoots
1 on the next update. -/
def c3Ball : Ball := ⟨⟨0, 0⟩, ⟨1, 1⟩, ⟨1/2, 999/1000, 1/2⟩, ⟨1/200, 1/200, 1/200⟩, ⟨1, 1, 1⟩⟩

/-- The 800x600 window rectangle centred at the origin. -/
def wRect : Rect := ⟨-400, 400, -300, 300⟩

/-- Witness ball with well-formed color channels. -/
def wB : Ball := ⟨⟨0, 0⟩, ⟨1, 1⟩, ⟨1/2, 999/1000, 0⟩, ⟨1/200, 1/200, 1/200⟩, ⟨1, -1, 1⟩⟩

/-- Shared starting color of the three scenario balls. -/
def scenC : Rgb := ⟨1/2, 1/2, 1/2⟩

/-- Shared color drift speed of the scenario balls (0.005 of the source). -/
def scenS : Rgb := ⟨1/200, 1/200, 1/200⟩

/-- Shared color drift direction of the scenario balls. -/
def scenD : Rgb := ⟨1, 1, 1⟩

/-- The three balls of the scenario: all at the center of the 800x600 bounds,
with velocities (3,0), (0,3) and (-3,-3). -/
def scenBalls : List Ball :=
  [⟨⟨0, 0⟩, ⟨3, 0⟩, scenC, scenS, scenD⟩,
   ⟨⟨0, 0⟩, ⟨0, 3⟩, scenC, scenS, scenD⟩,
   ⟨⟨0, 0⟩, ⟨-3, -3⟩, scenC, scenS, scenD⟩]

/-- Color of each scenario ball after one advance. -/
def scenC1 : Rgb := ⟨101/200, 101/200, 101/200⟩

/-- Scenario ball 0 after the advance phase. -/
def A0 : Ball := ⟨⟨3, 0⟩, ⟨3, 0⟩, scenC1, scenS, scenD⟩

/-- Scenario ball 1 after the advance phase. -/
def A1 : Ball := ⟨⟨0, 3⟩, ⟨0, 3⟩, scenC1, scenS, scenD⟩

/-- Scenario ball 2 after the advance phase. -/
def A2 : Ball := ⟨⟨-3, -3⟩, ⟨-3, -3⟩, scenC1, scenS, scenD⟩

/-- Abbreviation for the square root of 2. -/
def sq2 : ℝ := Real.sqrt 2

/-- Distance between balls 0 and 2 after the pair (0,1) was resolved. -/
def t881 : ℝ := Real.sqrt (881/2)

/-- Collision normal of the scenario pair (0, 1). -/
def n01 : Vec2 := ⟨sq2/2, -(sq2/2)⟩

/-- Scenario ball 0 after resolving the pair (0, 1). -/
def B0 : Ball := ⟨⟨3/2 + 10*sq2, 3/2 - 10*sq2⟩, ⟨0, 3⟩, scenC1, scenS, scenD⟩

/-- Scenario ball 1 after resolving the pair (0, 1). -/
def B1 : Ball := ⟨⟨3/2 - 10*sq2, 3/2 + 10*sq2⟩, ⟨3, 0⟩, scenC1, scenS, scenD⟩

/-- Collision normal of the scenario pair (0, 2). -/
def n02 : Vec2 := ⟨t881⁻¹ * (9/2 + 10*sq2), t881⁻¹ * (9/2 - 10*sq2)⟩

/-- First component of the pair (0, 2) positional correction. -/
def kx : ℝ := (20 * 2 - t881) / 2 * (t881⁻¹ * (9/2 + 10*sq2))

/-- Second component of the pair (0, 2) positional correction. -/
def ky : ℝ := (20 * 2 - t881) / 2 * (t881⁻¹ * (9/2 - 10*sq2))

/-- Velocity of scenario ball 0 after resolving the pair (0, 2). -/
def V0q : Vec2 :=
  (⟨0, 3⟩ : Vec2) +
    (Vec2.smul (Vec2.dot ⟨-3, -3⟩ n02) n02 - Vec2.smul (Vec2.dot ⟨0, 3⟩ n02) n02)

/-- Velocity of scenario ball 2 after resolving the pair (0, 2). -/
def V2q : Vec2 :=
  (⟨-3, -3⟩ : Vec2) +
    (Vec2.smul (Vec2.dot ⟨0, 3⟩ n02) n02 - Vec2.smul (Vec2.dot ⟨-3, -3⟩ n02) n02)

/-- Scenario ball 0 after resolving the pair (0, 2). -/
def B0q : Ball := ⟨⟨3/2 + 10*sq2 + kx, 3/2 - 10*sq2 + ky⟩, V0q, scenC1, scenS, scenD⟩

/-- Scenario ball 2 after resolving the pair (0, 2). -/
def B2q : Ball := ⟨⟨-3 - kx, -3 - ky⟩, V2q, scenC1, scenS, scenD⟩

/- ------------------------------------------------------------------ -/
/- Theorems.                                                           -/
/- ------------------------------------------------------------------ -/

@[simp] theorem Vec2.add_x (a b : Vec2) : (a + b).x = a.x + b.x := rfl

@[simp] theorem Vec2.add_y (a b : Vec2) : (a + b).y = a.y + b.y := rfl

@[simp] theorem Vec2.sub_x (a b : Vec2) : (a - b).x = a.x - b.x := rfl

@[simp] theorem Vec2.sub_y (a b : Vec2) : (a - b).y = a.y - b.y := rfl

/-- C4: Ball::update first sets the position to exactly the old position plus
the old velocity; it negates velocity.x exactly when the new x coordinate is
outside [left, right] (symmetrically for y against [bottom, top]); the
position itself is never clamped back inside the bounds. -/
theorem c4_advance_integration_and_reflection (b : Ball) (r : Rect) :
    (b.update r).position = b.position + b.velocity ∧
    (b.update r).velocity.x =
      (if (b.position + b.velocity).x < r.left ∨ (b.position + b.velocity).x > r.right then
        -b.velocity.x
      else
        b.velocity.x) ∧
    (b.update r).velocity.y =
      (if (b.position + b.velocity).y < r.bottom ∨ (b.position + b.velocity).y > r.top then
        -b.velocity.y
      else
        b.velocity.y) :=
  ⟨rfl, rfl, rfl⟩

/-- C10: boundary reflection only flips the sign of a velocity component, so
Ball::update preserves the absolute value of each component of the velocity
(and hence the speed); only Ball::collide can change the speed. -/
theorem c10_advance_preserves_component_speed (b : Ball) (r : Rect) :
    |(b.update r).velocity.x| = |b.velocity.x| ∧
    |(b.update r).velocity.y| = |b.velocity.y| := by
  constructor <;>
    · simp only [Ball.update]
      split <;> simp [abs_neg]

/-- C5: each Ball::update call adds speed * direction to every color channel,
and then multiplies that channel's direction by -1 exactly when the new value
is ≤ 0 or ≥ 1, leaving it unchanged (multiplied by 1) otherwise. -/
theorem c5_color_drift_and_direction_flip (b : Ball) (r : Rect) :
    (b.update r).color.red
        = b.color.red + b.color_change_speed.red * b.color_change_direction.red ∧
    (b.update r).color.green
        = b.color.green + b.color_change_speed.green * b.color_change_direction.green ∧
    (b.update r).color.blue
        = b.color.blue + b.color_change_speed.blue * b.color_change_direction.blue ∧
    (b.update r).color_change_direction.red
        = b.color_change_direction.red *
            (if (b.update r).color.red ≤ 0 ∨ (b.update r).color.red ≥ 1 then -1 else 1) ∧
    (b.update r).color_change_direction.green
        = b.color_change_direction.green *
            (if (b.update r).color.green ≤ 0 ∨ (b.update r).color.green ≥ 1 then -1 else 1) ∧
    (b.update r).color_change_direction.blue
        = b.color_change_direction.blue *
            (if (b.update r).color.blue ≤ 0 ∨ (b.update r).color.blue ≥ 1 then -1 else 1) :=
  ⟨rfl, rfl, rfl, rfl, rfl, rfl⟩

end

theorem vec2_eq_of_comps (a b : Vec2) (hx : a.x = b.x) (hy : a.y = b.y) : a = b := by
  cases a; cases b; simp_all

theorem Vec2.length_eq_zero_iff (v : Vec2) : v.length = 0 ↔ v.x = 0 ∧ v.y = 0 := by
  unfold Vec2.length Vec2.dot
  constructor
  · intro h
    have h' : v.x * v.x + v.y * v.y ≤ 0 := Real.sqrt_eq_zero'.mp h
    constructor <;> nlinarith
  · rintro ⟨hx, hy⟩
    rw [hx, hy]
    norm_num

theorem length_sub_ne_zero (a b : Vec2) (h : a ≠ b) : (a - b).length ≠ 0 := by
  rw [Ne, Vec2.length_eq_zero_iff]
  rintro ⟨hx, hy⟩
  simp only [Vec2.sub_x, Vec2.sub_y, sub_eq_zero] at hx hy
  exact h (vec2_eq_of_comps a b hx hy)

/-- Evaluation lemma for Ball::collide in the overlapping, non-degenerate
case, with the distance and the unit normal supplied as hypotheses. -/
theorem collide_eval (self other : Ball) (n : Vec2) (d : ℝ)
    (hd : self.position.distance other.position = d) (hd40 : d < 40)
    (hn : (self.position - other.position).normalize = some n) :
    self.collide other = some
      ({ self with
          velocity := self.velocity +
            (Vec2.smul (other.velocity.dot n) n - Vec2.smul (self.velocity.dot n) n),
          position := self.position + Vec2.smul ((20 * 2 - d) / 2) n },
       { other with
          velocity := other.velocity +
            (Vec2.smul (self.velocity.dot n) n - Vec2.smul (other.velocity.dot n) n),
          position := other.position - Vec2.smul ((20 * 2 - d) / 2) n }) := by
  have h40 : d < 20 * 2 := by linarith
  simp only [Ball.collide, hd, if_pos h40, hn, Option.map_some']

theorem collide_isSome_of_ne (self other : Ball) (h : self.position ≠ other.position) :
    (self.collide other).isSome := by
  have hlen := length_sub_ne_zero _ _ h
  simp only [Ball.collide, Vec2.normalize, if_neg hlen]
  by_cases hc : self.position.distance other.position < 20 * 2
  · rw [if_pos hc]
    simp
  · rw [if_neg hc]
    simp

/-- C1: two balls whose positions coincide exactly hit the unguarded
normalize of the zero collision vector; glam returns NaN components there, so
the collision poisons both balls (modelled by the none result) instead of
producing a defined, non-NaN state. -/
theorem c1_coincident_positions_poison_with_nan :
    c1self.collide c1other = none := by
  have hlen : (c1self.position - c1other.position).length = 0 := by
    rw [Vec2.length_eq_zero_iff]
    norm_num [c1self, c1other]
  have hd : c1self.position.distance c1other.position = 0 := hlen
  simp only [Ball.collide, hd, if_pos (show (0:ℝ) < 20 * 2 by norm_num),
    Vec2.normalize, if_pos hlen, Option.map_none']

/-- C7: when the two balls are separated by at least radii_sum (40), collide
is a complete no-op: every field of both balls is returned unchanged. -/
theorem c7_collide_noop_when_separated (self other : Ball)
    (h : 40 ≤ self.position.distance other.position) :
    self.collide other = some (self, other) := by
  have h' : ¬ self.position.distance other.position < 20 * 2 := by
    push_neg
    linarith
  simp only [Ball.collide, if_neg h']

theorem c7_witness :
    (40:ℝ) ≤ w7self.position.distance w7other.position ∧
    w7self.collide w7other = some (w7self, w7other) := by
  have hd : w7self.position.distance w7other.position = 50 := by
    simp only [w7self, w7other, Vec2.distance, Vec2.length, Vec2.dot, Vec2.sub_x, Vec2.sub_y]
    rw [show ((0:ℝ) - 50) * ((0:ℝ) - 50) + ((0:ℝ) - 0) * ((0:ℝ) - 0) = 50 ^ 2 by norm_num]
    exact Real.sqrt_sq (by norm_num)
  refine ⟨by rw [hd]; norm_num, ?_⟩
  exact c7_collide_noop_when_separated _ _ (by rw [hd]; norm_num)

/-- C9: for two balls at distinct positions, collide conserves the vector sum
of the velocities (total momentum at unit mass), in both the overlapping and
the separated branch. -/
theorem c9_collide_conserves_momentum (self other : Ball)
    (h : self.position ≠ other.position) :
    (self.collide other).map (fun pr => pr.1.velocity + pr.2.velocity)
      = some (self.velocity + other.velocity) := by
  have hlen := length_sub_ne_zero _ _ h
  simp only [Ball.collide, Vec2.normalize, if_neg hlen]
  by_cases hc : self.position.distance other.position < 20 * 2
  · rw [if_pos hc]
    simp only [Option.map_some']
    refine congrArg some ?_
    apply vec2_eq_of_comps <;> simp [Vec2.smul, Vec2.dot] <;> ring
  · rw [if_neg hc]
    rfl

theorem c9_witness :
    w9self.position ≠ w9other.position ∧
    (w9self.collide w9other).map (fun pr => pr.1.velocity + pr.2.velocity)
      = some (w9self.velocity + w9other.velocity) := by
  have hne : w9self.position ≠ w9other.position := by
    simp only [w9self, w9other]
    intro hcontra
    rw [Vec2.mk.injEq] at hcontra
    norm_num at hcontra
  exact ⟨hne, c9_collide_conserves_momentum _ _ hne⟩

theorem chanStep_preserves_inv (s : ℝ) (hs0 : 0 ≤ s) (hs1 : s ≤ 1) (p : ℝ × ℝ)
    (h : chanInv s p) : chanInv s (chanStep s p) := by
  obtain ⟨hd, hlow, hhigh, hgt, hlt⟩ := h
  rcases hd with hd | hd
  · have hp1 : p.1 ≤ 1 := by
      by_contra hcon
      push_neg at hcon
      have h2 := hgt hcon
      rw [hd] at h2
      norm_num at h2
    simp only [chanInv, chanStep, hd]
    split_ifs with hc
    · exact ⟨Or.inr (by norm_num), by linarith, by linarith,
        fun h' => by norm_num, fun h' => by linarith⟩
    · push_neg at hc
      obtain ⟨hc1, hc2⟩ := hc
      exact ⟨Or.inl (by norm_num), by linarith, by linarith,
        fun h' => by linarith, fun h' => by linarith⟩
  · have hp0 : 0 ≤ p.1 := by
      by_contra hcon
      push_neg at hcon
      have h2 := hlt hcon
      rw [hd] at h2
      norm_num at h2
    simp only [chanInv, chanStep, hd]
    split_ifs with hc
    · exact ⟨Or.inl (by norm_num), by linarith, by linarith,
        fun h' => by linarith, fun h' => by norm_num⟩
    · push_neg at hc
      obtain ⟨hc1, hc2⟩ := hc
      exact ⟨Or.inr (by norm_num), by linarith, by linarith,
        fun h' => by norm_num, fun h' => by linarith⟩

theorem updateIter_speed (b : Ball) (r : Rect) (n : Nat) :
    (updateIter b r n).color_change_speed = b.color_change_speed := by
  induction n with
  | zero => rfl
  | succ n ih => exact ih

theorem chanInv_iter_gen (f : Rgb → ℝ)
    (hstep : ∀ (b : Ball) (r : Rect),
      (f (b.update r).color, f (b.update r).color_change_direction)
        = chanStep (f b.color_change_speed) (f b.color, f b.color_change_direction))
    (b : Ball) (r : Rect)
    (hs0 : 0 ≤ f b.color_change_speed) (hs1 : f b.color_change_speed ≤ 1)
    (h : chanInv (f b.color_change_speed) (f b.color, f b.color_change_direction)) :
    ∀ n, chanInv (f b.color_change_speed)
      (f (updateIter b r n).color, f (updateIter b r n).color_change_direction) := by
  intro n
  induction n with
  | zero => exact h
  | succ n ih =>
    have step := hstep (updateIter b r n) r
    rw [updateIter_speed] at step
    show chanInv (f b.color_change_speed)
      (f ((updateIter b r n).update r).color, f ((updateIter b r n).update r).color_change_direction)
    rw [show (f ((updateIter b r n).update r).color, f ((updateIter b r n).update r).color_change_direction)
          = chanStep (f b.color_change_speed)
              (f (updateIter b r n).color, f (updateIter b r n).color_change_direction) from step]
    exact chanStep_preserves_inv _ hs0 hs1 _ ih

/-- C3 counterexample: the green channel of c3Ball starts inside [0, 1]
(at 999/1000, with drift speed 1/200 and direction 1) yet exceeds 1 right
after one update call: the direction flips but the value itself is not
clamped, so the claim that channels stay in [0, 1] is false. -/
theorem c3_counterexample :
    (0 ≤ c3Ball.color.green ∧ c3Ball.color.green ≤ 1) ∧
    1 < (c3Ball.update wRect).color.green := by
  refine ⟨by norm_num [c3Ball], ?_⟩
  simp only [Ball.update, c3Ball]
  norm_num

/-- C3 amended: for channels that start in [0, 1] with direction in {1, -1}
and drift speed in [0, 1], every channel value stays within
[-speed, 1 + speed] after every update call: a channel can overshoot [0, 1]
by at most one drift step, after which the direction flip (never a hard
clamp) steers it back. -/
theorem c3_amended_channels_bounded (b : Ball) (r : Rect)
    (hred : chanOK b.color_change_speed.red b.color.red b.color_change_direction.red)
    (hgreen : chanOK b.color_change_speed.green b.color.green b.color_change_direction.green)
    (hblue : chanOK b.color_change_speed.blue b.color.blue b.color_change_direction.blue)
    (n : Nat) :
    (-b.color_change_speed.red ≤ (updateIter b r n).color.red ∧
      (updateIter b r n).color.red ≤ 1 + b.color_change_speed.red) ∧
    (-b.color_change_speed.green ≤ (updateIter b r n).color.green ∧
      (updateIter b r n).color.green ≤ 1 + b.color_change_speed.green) ∧
    (-b.color_change_speed.blue ≤ (updateIter b r n).color.blue ∧
      (updateIter b r n).color.blue ≤ 1 + b.color_change_speed.blue) := by
  obtain ⟨hr0, hr1, hrv0, hrv1, hrd⟩ := hred
  obtain ⟨hg0, hg1, hgv0, hgv1, hgd⟩ := hgreen
  obtain ⟨hb0, hb1, hbv0, hbv1, hbd⟩ := hblue
  have Hr := chanInv_iter_gen Rgb.red (fun b r => rfl) b r hr0 hr1
    ⟨hrd, by linarith, by linarith,
      fun h' => absurd h' (by simp only [not_lt]; linarith),
      fun h' => absurd h' (by simp only [not_lt]; linarith)⟩ n
  have Hg := chanInv_iter_gen Rgb.green (fun b r => rfl) b r hg0 hg1
    ⟨hgd, by linarith, by linarith,
      fun h' => absurd h' (by simp only [not_lt]; linarith),
      fun h' => absurd h' (by simp only [not_lt]; linarith)⟩ n
  have Hb := chanInv_iter_gen Rgb.blue (fun b r => rfl) b r hb0 hb1
    ⟨hbd, by linarith, by linarith,
      fun h' => absurd h' (by simp only [not_lt]; linarith),
      fun h' => absurd h' (by simp only [not_lt]; linarith)⟩ n
  exact ⟨⟨Hr.2.1, Hr.2.2.1⟩, ⟨Hg.2.1, Hg.2.2.1⟩, ⟨Hb.2.1, Hb.2.2.1⟩⟩

theorem c3_witness :
    chanOK wB.color_change_speed.red wB.color.red wB.color_change_direction.red ∧
    chanOK wB.color_change_speed.green wB.color.green wB.color_change_direction.green ∧
    chanOK wB.color_change_speed.blue wB.color.blue wB.color_change_direction.blue ∧
    ((-wB.color_change_speed.red ≤ (updateIter wB wRect 2).color.red ∧
       (updateIter wB wRect 2).color.red ≤ 1 + wB.color_change_speed.red) ∧
     (-wB.color_change_speed.green ≤ (updateIter wB wRect 2).color.green ∧
       (updateIter wB wRect 2).color.green ≤ 1 + wB.color_change_speed.green) ∧
     (-wB.color_change_speed.blue ≤ (updateIter wB wRect 2).color.blue ∧
       (updateIter wB wRect 2).color.blue ≤ 1 + wB.color_change_speed.blue)) := by
  have h1 : chanOK wB.color_change_speed.red wB.color.red wB.color_change_direction.red := by
    norm_num [chanOK, wB]
  have h2 : chanOK wB.color_change_speed.green wB.color.green wB.color_change_direction.green := by
    norm_num [chanOK, wB]
  have h3 : chanOK wB.color_change_speed.blue wB.color.blue wB.color_change_direction.blue := by
    norm_num [chanOK, wB]
  exact ⟨h1, h2, h3, c3_amended_channels_bounded wB wRect h1 h2 h3 2⟩

theorem foldlM_append_opt {α β : Type} (f : β → α → Option β) (l1 l2 : List α) (b : β) :
    (l1 ++ l2).foldlM f b = (l1.foldlM f b) >>= fun b' => l2.foldlM f b' := by
  induction l1 generalizing b with
  | nil => simp
  | cons a as ih =>
    simp only [List.cons_append, List.foldlM_cons]
    cases f b a <;> simp [ih]

theorem foldlM_map_opt {α γ β : Type} (g : α → γ) (f : β → γ → Option β)
    (l : List α) (b : β) :
    (l.map g).foldlM f b = l.foldlM (fun b a => f b (g a)) b := by
  induction l generalizing b with
  | nil => simp
  | cons a as ih => simp [List.foldlM_cons, ih]

theorem foldlM_blocks {α γ β : Type} (blocks : α → List γ) (f : β → γ → Option β)
    (is : List α) (b : β) :
    ((is.foldr (fun i acc => blocks i ++ acc) []).foldlM f b)
      = is.foldlM (fun b i => (blocks i).foldlM f b) b := by
  induction is generalizing b with
  | nil => simp
  | cons i is ih =>
    rw [List.foldr_cons, foldlM_append_opt, List.foldlM_cons]
    cases (blocks i).foldlM f b <;> simp [ih]

/-- C8: the tick of src/main.rs (advance every ball, then the nested
split_at_mut sweep) computes exactly the specification's two-phase reference:
an order-independent advance map followed by one single, non-iterated pass
over all pairs (i, j), i < j, in ascending i then ascending j order. -/
theorem c8_tick_is_two_phase_ascending_sweep (balls : List Ball) (r : Rect) :
    update balls r = tickSpec balls r := by
  simp only [update, tickSpec, pairs, List.length_map]
  rw [foldlM_blocks]
  congr 1
  funext bs i
  rw [foldlM_map_opt]

theorem Vec2.add_def (a b : Vec2) : a + b = ⟨a.x + b.x, a.y + b.y⟩ := rfl

theorem Vec2.sub_def (a b : Vec2) : a - b = ⟨a.x - b.x, a.y - b.y⟩ := rfl

/-- C6: two radius-20 balls at distance 30 along the x axis, approaching head
on with velocities (1,0) and (-1,0): one collide call swaps the velocities and
pushes the positions apart to exactly radii_sum = 40 along the same line. -/
theorem c6_head_on_swap_and_separate :
    c6self.collide c6other =
      some (⟨⟨-5, 0⟩, ⟨-1, 0⟩, ⟨1/2, 1/2, 1/2⟩, ⟨1/200, 1/200, 1/200⟩, ⟨1, 1, 1⟩⟩,
            ⟨⟨35, 0⟩, ⟨1, 0⟩, ⟨1/4, 1/4, 1/4⟩, ⟨1/200, 1/200, 1/200⟩, ⟨-1, 1, -1⟩⟩) ∧
    Vec2.distance ⟨-5, 0⟩ ⟨35, 0⟩ = 40 := by
  have hd : c6self.position.distance c6other.position = 30 := by
    simp only [c6self, c6other, Vec2.distance, Vec2.length, Vec2.dot, Vec2.sub_x, Vec2.sub_y]
    rw [show ((0:ℝ) - 30) * ((0:ℝ) - 30) + ((0:ℝ) - 0) * ((0:ℝ) - 0) = 30 ^ 2 by norm_num]
    exact Real.sqrt_sq (by norm_num)
  have hlen : (c6self.position - c6other.position).length = 30 := hd
  have hn : (c6self.position - c6other.position).normalize = some ⟨-1, 0⟩ := by
    simp only [Vec2.normalize, hlen]
    norm_num [c6self, c6other, Vec2.smul, Vec2.sub_def, Vec2.mk.injEq]
  constructor
  · rw [collide_eval c6self c6other ⟨-1, 0⟩ 30 hd (by norm_num) hn]
    simp only [c6self, c6other, Vec2.smul, Vec2.dot, Vec2.add_def, Vec2.sub_def,
      Option.some.injEq, Prod.mk.injEq, Ball.mk.injEq, Vec2.mk.injEq, Rgb.mk.injEq]
    norm_num
  · simp only [Vec2.distance, Vec2.length, Vec2.dot, Vec2.sub_x, Vec2.sub_y]
    rw [show ((-5:ℝ) - 35) * ((-5:ℝ) - 35) + ((0:ℝ) - 0) * ((0:ℝ) - 0) = 40 ^ 2 by norm_num]
    exact Real.sqrt_sq (by norm_num)

theorem ball_eq_of_fields (a b : Ball) (h1 : a.position = b.position)
    (h2 : a.velocity = b.velocity) (h3 : a.color = b.color)
    (h4 : a.color_change_speed = b.color_change_speed)
    (h5 : a.color_change_direction = b.color_change_direction) : a = b := by
  cases a; cases b; simp_all

theorem sq2_mul_self : sq2 * sq2 = 2 := Real.mul_self_sqrt (by norm_num)

theorem sq2_pos : 0 < sq2 := Real.sqrt_pos.mpr (by norm_num)

theorem sq2_gt : (141/100 : ℝ) < sq2 := by
  show (141/100 : ℝ) < Real.sqrt 2
  rw [Real.lt_sqrt (by norm_num)]
  norm_num

theorem sq2_lt : sq2 < 283/200 := by
  show Real.sqrt 2 < 283/200
  rw [Real.sqrt_lt' (by norm_num)]
  norm_num

theorem sqrt18_eq : Real.sqrt 18 = 3 * sq2 := by
  rw [show (18:ℝ) = 9 * 2 by norm_num, Real.sqrt_mul (by norm_num : (0:ℝ) ≤ 9) 2]
  rw [show Real.sqrt 9 = 3 by
    rw [show (9:ℝ) = 3 ^ 2 by norm_num]
    exact Real.sqrt_sq (by norm_num)]
  rfl

theorem t881_mul_self : t881 * t881 = 881/2 := Real.mul_self_sqrt (by norm_num)

theorem t881_pos : 0 < t881 := Real.sqrt_pos.mpr (by norm_num)

theorem t881_lt40 : t881 < 40 := by
  show Real.sqrt (881/2) < 40
  rw [Real.sqrt_lt' (by norm_num)]
  norm_num

theorem t881_gt20 : (20 : ℝ) < t881 := by
  show (20 : ℝ) < Real.sqrt (881/2)
  rw [Real.lt_sqrt (by norm_num)]
  norm_num

theorem t881_lt21 : t881 < 21 := by
  show Real.sqrt (881/2) < 21
  rw [Real.sqrt_lt' (by norm_num)]
  norm_num

theorem kx_pos : 0 < kx := by
  have h1 : 0 < (20 * 2 - t881) / 2 := by
    have := t881_lt40
    have h2 : (0:ℝ) < 20 * 2 - t881 := by linarith
    linarith
  have h2 : 0 < t881⁻¹ * (9/2 + 10*sq2) := by
    have := sq2_pos
    have := t881_pos
    have hinv : 0 < t881⁻¹ := inv_pos.mpr t881_pos
    nlinarith
  exact mul_pos h1 h2

theorem scen_phase1 : scenBalls.map (fun b => b.update wRect) = [A0, A1, A2] := by
  norm_num [scenBalls, Ball.update, wRect, scenC, scenS, scenD, scenC1, A0, A1, A2,
    Vec2.add_def, Ball.mk.injEq, Vec2.mk.injEq, Rgb.mk.injEq, List.map_cons, List.map_nil]

theorem inv3sq2 : ((3:ℝ) * sq2)⁻¹ = sq2 / 6 :=
  inv_eq_of_mul_eq_one_right (by linear_combination (1/2 : ℝ) * sq2_mul_self)

theorem step01 : collideAt [A0, A1, A2] 0 1 = some [B0, B1, A2] := by
  have hd : A0.position.distance A1.position = 3 * sq2 := by
    simp only [A0, A1, Vec2.distance, Vec2.length, Vec2.dot, Vec2.sub_x, Vec2.sub_y]
    rw [show ((3:ℝ) - 0) * ((3:ℝ) - 0) + ((0:ℝ) - 3) * ((0:ℝ) - 3) = 18 by norm_num]
    exact sqrt18_eq
  have hlen : (A0.position - A1.position).length = 3 * sq2 := hd
  have hlen0 : (3:ℝ) * sq2 ≠ 0 := ne_of_gt (mul_pos (by norm_num) sq2_pos)
  have hn : (A0.position - A1.position).normalize = some n01 := by
    simp only [Vec2.normalize, hlen, if_neg hlen0]
    refine congrArg some (vec2_eq_of_comps _ _ ?_ ?_)
    · simp only [Vec2.smul, A0, A1, Vec2.sub_x, n01, inv3sq2]
      ring
    · simp only [Vec2.smul, A0, A1, Vec2.sub_y, n01, inv3sq2]
      ring
  have hlt : (3:ℝ) * sq2 < 40 := by
    have := sq2_lt
    linarith
  have hcol := collide_eval A0 A1 n01 (3 * sq2) hd hlt hn
  have e1 : ({ A0 with
      velocity := A0.velocity +
        (Vec2.smul (A1.velocity.dot n01) n01 - Vec2.smul (A0.velocity.dot n01) n01),
      position := A0.position + Vec2.smul ((20 * 2 - 3 * sq2) / 2) n01 } : Ball) = B0 := by
    refine ball_eq_of_fields _ _ (vec2_eq_of_comps _ _ ?_ ?_) (vec2_eq_of_comps _ _ ?_ ?_) rfl rfl rfl
    · simp only [A0, A1, n01, B0, Vec2.smul, Vec2.dot, Vec2.add_x, Vec2.add_y,
        Vec2.sub_x, Vec2.sub_y]
      linear_combination (-3/4 : ℝ) * sq2_mul_self
    · simp only [A0, A1, n01, B0, Vec2.smul, Vec2.dot, Vec2.add_x, Vec2.add_y,
        Vec2.sub_x, Vec2.sub_y]
      linear_combination (3/4 : ℝ) * sq2_mul_self
    · simp only [A0, A1, n01, B0, Vec2.smul, Vec2.dot, Vec2.add_x, Vec2.add_y,
        Vec2.sub_x, Vec2.sub_y]
      linear_combination (-3/2 : ℝ) * sq2_mul_self
    · simp only [A0, A1, n01, B0, Vec2.smul, Vec2.dot, Vec2.add_x, Vec2.add_y,
        Vec2.sub_x, Vec2.sub_y]
      linear_combination (3/2 : ℝ) * sq2_mul_self
  have e2 : ({ A1 with
      velocity := A1.velocity +
        (Vec2.smul (A0.velocity.dot n01) n01 - Vec2.smul (A1.velocity.dot n01) n01),
      position := A1.position - Vec2.smul ((20 * 2 - 3 * sq2) / 2) n01 } : Ball) = B1 := by
    refine ball_eq_of_fields _ _ (vec2_eq_of_comps _ _ ?_ ?_) (vec2_eq_of_comps _ _ ?_ ?_) rfl rfl rfl
    · simp only [A0, A1, n01, B1, Vec2.smul, Vec2.dot, Vec2.add_x, Vec2.add_y,
        Vec2.sub_x, Vec2.sub_y]
      linear_combination (3/4 : ℝ) * sq2_mul_self
    · simp only [A0, A1, n01, B1, Vec2.smul, Vec2.dot, Vec2.add_x, Vec2.add_y,
        Vec2.sub_x, Vec2.sub_y]
      linear_combination (-3/4 : ℝ) * sq2_mul_self
    · simp only [A0, A1, n01, B1, Vec2.smul, Vec2.dot, Vec2.add_x, Vec2.add_y,
        Vec2.sub_x, Vec2.sub_y]
      linear_combination (3/2 : ℝ) * sq2_mul_self
    · simp only [A0, A1, n01, B1, Vec2.smul, Vec2.dot, Vec2.add_x, Vec2.add_y,
        Vec2.sub_x, Vec2.sub_y]
      linear_combination (-3/2 : ℝ) * sq2_mul_self
  rw [e1, e2] at hcol
  simp only [collideAt]
  rw [show ([A0, A1, A2].getD 0 dummyBall) = A0 from rfl,
      show ([A0, A1, A2].getD 1 dummyBall) = A1 from rfl, hcol, Option.map_some']
  rfl

theorem step02 : collideAt [B0, B1, A2] 0 2 = some [B0q, B1, B2q] := by
  have hd : B0.position.distance A2.position = t881 := by
    simp only [B0, A2, Vec2.distance, Vec2.length, Vec2.dot, Vec2.sub_x, Vec2.sub_y]
    show Real.sqrt _ = Real.sqrt (881/2)
    congr 1
    linear_combination (200 : ℝ) * sq2_mul_self
  have hlen : (B0.position - A2.position).length = t881 := hd
  have hn : (B0.position - A2.position).normalize = some n02 := by
    simp only [Vec2.normalize, hlen, if_neg (ne_of_gt t881_pos)]
    refine congrArg some (vec2_eq_of_comps _ _ ?_ ?_)
    · simp only [Vec2.smul, B0, A2, Vec2.sub_x, n02]
      ring
    · simp only [Vec2.smul, B0, A2, Vec2.sub_y, n02]
      ring
  have hcol := collide_eval B0 A2 n02 t881 hd t881_lt40 hn
  simp only [collideAt]
  rw [show ([B0, B1, A2].getD 0 dummyBall) = B0 from rfl,
      show ([B0, B1, A2].getD 2 dummyBall) = A2 from rfl, hcol, Option.map_some']
  rfl

theorem update_scen : update scenBalls wRect = collideAt [B0q, B1, B2q] 1 2 := by
  simp only [update]
  rw [scen_phase1]
  rw [show ([A0, A1, A2] : List Ball).length = 3 from rfl]
  rw [show List.range 3 = [0, 1, 2] from rfl]
  simp only [List.foldlM_cons, List.foldlM_nil, List.drop]
  rw [step01]
  simp only [Option.bind_eq_bind, Option.some_bind]
  rw [step02]
  simp only [Option.pure_def, Option.some_bind]
  rcases hfin : collideAt [B0q, B1, B2q] 1 2 with _ | v <;> simp [hfin]

theorem b1_b2q_ne : B1.position ≠ B2q.position := by
  intro h
  have hx : (3/2 - 10*sq2 : ℝ) = -3 - kx := congrArg Vec2.x h
  have htne : t881 ≠ 0 := ne_of_gt t881_pos
  have hkx : kx * (2 * t881) = (20 * 2 - t881) * (9/2 + 10*sq2) := by
    field_simp [kx]
    ring
  have h20 := t881_gt20
  have h21 := t881_lt21
  have hs1 := sq2_gt
  have hs2 := sq2_lt
  have hprod : 0 < (t881 - 20) * (sq2 - 141/100) :=
    mul_pos (by linarith) (by linarith)
  nlinarith [hkx, hx, hprod]

/-- C2 counterexample: in the three-balls-at-center scenario, ball 0's
position after one full tick is not its pre-tick position plus its velocity
(which would be (3,0)): all three advanced balls overlap, so the collision
sweep moves the positions further. -/
theorem c2_counterexample_sweep_moves_positions :
    (update scenBalls wRect).map (fun bs => (bs.getD 0 dummyBall).position)
      ≠ some ⟨3, 0⟩ := by
  rw [update_scen]
  simp only [collideAt]
  rw [show ([B0q, B1, B2q].getD 1 dummyBall) = B1 from rfl,
      show ([B0q, B1, B2q].getD 2 dummyBall) = B2q from rfl]
  rcases hres : B1.collide B2q with _ | pr
  · simp [hres]
  · simp only [hres, Option.map_some']
    rw [show ((([B0q, B1, B2q].set 1 pr.1).set 2 pr.2).getD 0 dummyBall) = B0q from rfl]
    intro hcontra
    rw [Option.some.injEq] at hcontra
    have hx : (3/2 + 10*sq2 + kx : ℝ) = 3 := congrArg Vec2.x hcontra
    have h1 := sq2_gt
    have h2 := kx_pos
    linarith

/-- C2 amended: in the three-balls-at-center scenario, one full tick produces
no NaN or infinite field (the tick stays defined: no degenerate zero-distance
normalization occurs), and each ball's position immediately after the advance
phase (before the collision sweep) equals its pre-tick position plus its
velocity, with velocities unchanged by the advance (no boundary crossed); the
collision sweep then moves the overlapping balls further apart. -/
theorem c2_amended_scenario_one_tick :
    ((scenBalls.map fun b => b.update wRect).map Ball.position
        = [⟨3, 0⟩, ⟨0, 3⟩, ⟨-3, -3⟩] ∧
     (scenBalls.map fun b => b.update wRect).map Ball.velocity
        = [⟨3, 0⟩, ⟨0, 3⟩, ⟨-3, -3⟩]) ∧
    (update scenBalls wRect).isSome := by
  refine ⟨⟨?_, ?_⟩, ?_⟩
  · rw [scen_phase1]
    simp [A0, A1, A2]
  · rw [scen_phase1]
    simp [A0, A1, A2]
  · rw [update_scen]
    simp only [collideAt]
    rw [show ([B0q, B1, B2q].getD 1 dummyBall) = B1 from rfl,
        show ([B0q, B1, B2q].getD 2 dummyBall) = B2q from rfl]
    have hs := collide_isSome_of_ne B1 B2q b1_b2q_ne
    obtain ⟨pr, hpr⟩ := Option.isSome_iff_exists.mp hs
    rw [hpr]
    simp
